import Mathlib

/-!
Redwood: configuration reload and shutdown (reload.go).

A shallow embedding of `reload.go`.  Package-level variables become the fields
of `Globals`; every statement that touches the outside world (a mutex, a
collaborator call, the log, the file system, a channel) appends one entry to an
effect trace, together with a snapshot of the globals at the moment the
statement starts.  Go run-time failures (a panic, a self-deadlock) are the
`Fault` results.
-/

namespace Redwood

/-- Modelled from the spec: the struct `config` is declared outside reload.go.
It is the immutable snapshot of the server settings; the fields listed are the
ones reload.go reads (five log-sink paths and the process-identity file). -/
structure Config where
  AccessLog : String
  TLSLog : String
  ContentLogDir : String
  StarlarkLog : String
  AuthLog : String
  PIDFile : String
  deriving DecidableEq, Repr

/-- The three mutexes reload.go uses: `configLock` (a `sync.RWMutex`),
`configReloadLock` (a `sync.Mutex`) and `customLogLock` (declared with
`customLogs`, outside reload.go). -/
inductive Lock where
  | configLock
  | configReloadLock
  | customLogLock
  deriving DecidableEq, Repr

/-- How a lock is held: exclusively (`Lock`) or shared (`RLock`). -/
inductive Mode where
  | write
  | read
  deriving DecidableEq, Repr

/-- Modelled from the spec: the sink variables and the `customLogs` map are
declared outside reload.go.  The sinks are the five package-level sinks named
in reload.go and the values of the `customLogs` map (the dynamic mapping from
path to additional named sinks), identified by a handle. -/
inductive Sink where
  | accessLog
  | tlsLog
  | contentLog
  | starlarkLog
  | authLog
  | custom (handle : Nat)
  deriving DecidableEq, Repr

/-- The effects a statement of reload.go can have on the outside world. -/
inductive Event where
  | mutexLock (l : Lock)
  | mutexUnlock (l : Lock)
  | rLock (l : Lock)
  | rUnlock (l : Lock)
  | loadConfiguration
  | logPrintln (msg : String)
  | store (c : Option Config)
  | sinkOpen (s : Sink) (path : String) (ok : Bool)
  | openPerUserPorts (c : Config)
  | closeShutdownChan
  | osRemove (path : String)
  | goSleepExit (ns : Nat)
  | activeConnectionsWait
  | osExit (code : Nat)
  deriving DecidableEq, Repr

/-- The package-level variables: `configuration`, the `customLogs` map as the
list of its entries (key, sink handle) in the order `range` visits them,
whether `shutdownChan` has been closed, and the locks the running path holds. -/
structure Globals where
  configuration : Option Config
  customLogs : List (String × Nat)
  shutdownChanClosed : Bool
  held : List (Lock × Mode)
  deriving DecidableEq, Repr

/-- One entry of the effect trace: the effect and the globals when it starts. -/
structure Entry where
  event : Event
  pre : Globals
  deriving DecidableEq, Repr

/-- The globals together with the effect trace produced so far. -/
structure World where
  g : Globals
  trace : List Entry
  deriving DecidableEq, Repr

/-- Run-time failures of the Go program. -/
inductive Fault where
  | deadlock
  | unlockOfUnlocked
  | closeOfClosedChannel
  | nilDereference
  deriving DecidableEq, Repr

/-- The collaborators of reload.go, which live outside it:
`loadConfiguration` answers with the Go pair (pointer, error), `sinkOpen` tells
whether `Open` of a sink at a path succeeds, and `filepathJoin` is
`filepath.Join` on two elements. -/
structure Env where
  loadConfiguration : Option Config × Option String
  sinkOpen : Sink → String → Bool
  filepathJoin : String → String → String

/-- A computation over the world that may end in a fault. -/
def Exec (α : Type) : Type := World → Except Fault (α × World)

instance : Monad Exec where
  pure a := fun w => Except.ok (a, w)
  bind x f := fun w =>
    match x w with
    | Except.ok (a, w1) => f a w1
    | Except.error e => Except.error e

/-- Abort with a fault. -/
def fail {α : Type} (f : Fault) : Exec α := fun _ => Except.error f

/-- Append an effect to the trace, with the globals as they are now. -/
def emit (e : Event) : Exec Unit :=
  fun w => Except.ok ((), { w with trace := w.trace ++ [⟨e, w.g⟩] })

/-- Replace the list of held locks. -/
def setHeld (h : List (Lock × Mode)) : Exec Unit :=
  fun w => Except.ok ((), { w with g := { w.g with held := h } })

/-- Does the running path hold lock `l` in any mode? -/
def holds (l : Lock) (h : List (Lock × Mode)) : Bool :=
  h.any fun x => decide (x.1 = l)

/-- `Lock()`: blocks for ever when the running path already holds the lock. -/
def mutexLock (l : Lock) : Exec Unit := fun w =>
  if holds l w.g.held then Except.error Fault.deadlock
  else (do emit (Event.mutexLock l); setHeld ((l, Mode.write) :: w.g.held)) w

/-- `Unlock()`: a fatal error when the lock is not write-held. -/
def mutexUnlock (l : Lock) : Exec Unit := fun w =>
  if (l, Mode.write) ∈ w.g.held then
    (do emit (Event.mutexUnlock l); setHeld (w.g.held.erase (l, Mode.write))) w
  else Except.error Fault.unlockOfUnlocked

/-- `RLock()`: blocks for ever when the running path write-holds the lock. -/
def rLock (l : Lock) : Exec Unit := fun w =>
  if (l, Mode.write) ∈ w.g.held then Except.error Fault.deadlock
  else (do emit (Event.rLock l); setHeld ((l, Mode.read) :: w.g.held)) w

/-- `RUnlock()`: a fatal error when the lock is not read-held. -/
def rUnlock (l : Lock) : Exec Unit := fun w =>
  if (l, Mode.read) ∈ w.g.held then
    (do emit (Event.rUnlock l); setHeld (w.g.held.erase (l, Mode.read))) w
  else Except.error Fault.unlockOfUnlocked

/-- Read the variable `configuration`. -/
def readConfiguration : Exec (Option Config) := fun w => Except.ok (w.g.configuration, w)

/-- The assignment `configuration = newConf`. -/
def storeConfiguration (c : Option Config) : Exec Unit := fun w =>
  Except.ok ((), { g := { w.g with configuration := c },
                   trace := w.trace ++ [⟨Event.store c, w.g⟩] })

/-- Read the variable `customLogs`. -/
def readCustomLogs : Exec (List (String × Nat)) := fun w => Except.ok (w.g.customLogs, w)

/-- `getConfig` returns the current configuration. -/
def getConfig : Exec (Option Config) := do
  rLock Lock.configLock
  let c ← readConfiguration
  rUnlock Lock.configLock
  pure c

/-- `l.Open(path)`; whatever the call reports is dropped by the caller. -/
def sinkOpen (env : Env) (s : Sink) (path : String) : Exec Unit :=
  emit (Event.sinkOpen s path (env.sinkOpen s path))

/-- The loop `for p, l := range customLogs { l.Open(p) }`. -/
def openCustomLogs (env : Env) : List (String × Nat) → Exec Unit
  | [] => pure ()
  | (p, l) :: rest => do
      sinkOpen env (Sink.custom l) p
      openCustomLogs env rest

/-- Lines 53 to 68 of `reloadConfig`: everything after the swap, for a non-nil
`newConf`. -/
def reopenAll (env : Env) (newConf : Config) : Exec (Option String) := do
  sinkOpen env Sink.accessLog newConf.AccessLog
  sinkOpen env Sink.tlsLog newConf.TLSLog
  sinkOpen env Sink.contentLog (env.filepathJoin newConf.ContentLogDir "index.csv")
  sinkOpen env Sink.starlarkLog newConf.StarlarkLog
  sinkOpen env Sink.authLog newConf.AuthLog
  mutexLock Lock.customLogLock
  let logs ← readCustomLogs
  openCustomLogs env logs
  mutexUnlock Lock.customLogLock
  emit (Event.openPerUserPorts newConf)
  emit (Event.logPrintln "Reloaded configuration")
  pure none

/-- Lines 43 to 68 of `reloadConfig`: the body that runs between taking
`configReloadLock` and the deferred `Unlock`.  A nil `newConf` with a nil error
is stored and then dereferenced at line 53. -/
def reloadConfigBody (env : Env) : Exec (Option String) := do
  emit Event.loadConfiguration
  match env.loadConfiguration with
  | (_, some err) =>
      emit (Event.logPrintln ("Error reloading configuration: " ++ err))
      pure (some err)
  | (newConf, none) =>
      mutexLock Lock.configLock
      storeConfiguration newConf
      mutexUnlock Lock.configLock
      match newConf with
      | none => fail Fault.nilDereference
      | some c => reopenAll env c

/-- The function `reloadConfig`: the result is the returned error, `none` for
nil.  The deferred `configReloadLock.Unlock()` runs when the body returns; a
panic in the body ends the run as a fault. -/
def reloadConfig (env : Env) : Exec (Option String) := do
  mutexLock Lock.configReloadLock
  let err ← reloadConfigBody env
  mutexUnlock Lock.configReloadLock
  pure err

/-- `close(shutdownChan)`: closing a closed channel panics. -/
def closeShutdownChan : Exec Unit := fun w =>
  if w.g.shutdownChanClosed then Except.error Fault.closeOfClosedChannel
  else Except.ok ((), { g := { w.g with shutdownChanClosed := true },
                        trace := w.trace ++ [⟨Event.closeShutdownChan, w.g⟩] })

/-- The value of `time.Second`, in nanoseconds. -/
def timeSecond : Nat := 1000000000

/-- The `case <-termChan` branch of the goroutine started by `init`.  The
goroutine never comes back from it: it waits in `activeConnections.Wait()`
until the process exits at line 91 or line 95. -/
def handleSigterm : Exec Unit := do
  emit (Event.logPrintln "Received SIGTERM")
  closeShutdownChan
  let conf ← getConfig
  match conf with
  | some c => if c.PIDFile ≠ "" then emit (Event.osRemove c.PIDFile) else pure ()
  | none => pure ()
  emit (Event.goSleepExit (20 * timeSecond))
  emit Event.activeConnectionsWait
  emit (Event.osExit 0)

/-- What the `select` of the signal goroutine receives: a SIGHUP, with the
answers the collaborators give while it is handled, or a SIGTERM. -/
inductive Trigger where
  | sighup (env : Env)
  | sigterm

/-- The `for { select { ... } }` loop of the goroutine started by `init`, fed
with the triggers in the order the `select` receives them.  After the SIGTERM
branch the loop is never resumed, so the remaining triggers are not handled. -/
def signalLoop : List Trigger → Exec Unit
  | [] => pure ()
  | Trigger.sigterm :: _ => handleSigterm
  | Trigger.sighup env :: rest => do
      emit (Event.logPrintln "Received SIGHUP")
      let _ ← reloadConfig env
      signalLoop rest

/-- Run a computation from the given globals with an empty trace. -/
def run {α : Type} (x : Exec α) (g : Globals) : Except Fault (α × World) := x ⟨g, []⟩

/-- What a `getConfig` call made when the globals are `g` returns. -/
def currentConfig (g : Globals) : Except Fault (Option Config) :=
  match run getConfig g with
  | Except.ok (c, _) => Except.ok c
  | Except.error f => Except.error f

/-- The sink and path of an `Open` call, for any sink. -/
def Event.opened : Event → Option (Sink × String)
  | Event.sinkOpen s p _ => some (s, p)
  | _ => none

/-- Is the sink one of the five package-level sinks? -/
def Sink.isFixed : Sink → Bool
  | Sink.custom _ => false
  | _ => true

/-- The `Open` calls of a trace, in order. -/
def opens (t : List Entry) : List (Sink × String) :=
  t.filterMap fun x => x.event.opened

/-- The `Open` calls on the five package-level sinks, in order. -/
def fixedOpens (t : List Entry) : List (Sink × String) :=
  (opens t).filter fun x => x.1.isFixed

/-- The `Open` calls on the sinks of `customLogs`, in order. -/
def customOpens (t : List Entry) : List (Sink × String) :=
  (opens t).filter fun x => !x.1.isFixed

/-- The configurations `openPerUserPorts` was invoked on, in order. -/
def portsCalls (t : List Entry) : List Config :=
  t.filterMap fun x => match x.event with
    | Event.openPerUserPorts c => some c
    | _ => none

/-- The paths handed to `os.Remove`, in order. -/
def removals (t : List Entry) : List String :=
  t.filterMap fun x => match x.event with
    | Event.osRemove p => some p
    | _ => none

/-- The number of times `shutdownChan` was closed. -/
def closeCount (t : List Entry) : Nat :=
  t.countP fun x => decide (x.event = Event.closeShutdownChan)

/-- Does the effect begin a reload (take the reload token or call the loader)? -/
def Event.startsReload : Event → Bool
  | Event.mutexLock Lock.configReloadLock => true
  | Event.loadConfiguration => true
  | _ => false

/-- The reload token, write-held. -/
def tokenHeld : Lock × Mode := (Lock.configReloadLock, Mode.write)

/-- The entries the loop over `customLogs` adds while the globals are `g`. -/
def customEntries (env : Env) (g : Globals) (logs : List (String × Nat)) : List Entry :=
  logs.map fun e =>
    ⟨Event.sinkOpen (Sink.custom e.2) e.1 (env.sinkOpen (Sink.custom e.2) e.1), g⟩

/-- The entry of an `Open` call on a package-level sink. -/
def openEntry (env : Env) (g : Globals) (s : Sink) (p : String) : Entry :=
  ⟨Event.sinkOpen s p (env.sinkOpen s p), g⟩

/-- The effect trace of a reload whose loader answers with configuration `c`,
started with globals `g` and no lock held. -/
def okTrace (env : Env) (g : Globals) (c : Config) : List Entry :=
  let g1 : Globals := { g with held := [tokenHeld] }
  let g2 : Globals := { g with held := [(Lock.configLock, Mode.write), tokenHeld] }
  let g3 : Globals :=
    { g with configuration := some c, held := [(Lock.configLock, Mode.write), tokenHeld] }
  let g4 : Globals := { g with configuration := some c, held := [tokenHeld] }
  let g5 : Globals :=
    { g with configuration := some c, held := [(Lock.customLogLock, Mode.write), tokenHeld] }
  [⟨Event.mutexLock Lock.configReloadLock, g⟩,
   ⟨Event.loadConfiguration, g1⟩,
   ⟨Event.mutexLock Lock.configLock, g1⟩,
   ⟨Event.store (some c), g2⟩,
   ⟨Event.mutexUnlock Lock.configLock, g3⟩,
   openEntry env g4 Sink.accessLog c.AccessLog,
   openEntry env g4 Sink.tlsLog c.TLSLog,
   openEntry env g4 Sink.contentLog (env.filepathJoin c.ContentLogDir "index.csv"),
   openEntry env g4 Sink.starlarkLog c.StarlarkLog,
   openEntry env g4 Sink.authLog c.AuthLog,
   ⟨Event.mutexLock Lock.customLogLock, g4⟩]
  ++ customEntries env g5 g.customLogs
  ++ [⟨Event.mutexUnlock Lock.customLogLock, g5⟩,
      ⟨Event.openPerUserPorts c, g4⟩,
      ⟨Event.logPrintln "Reloaded configuration", g4⟩,
      ⟨Event.mutexUnlock Lock.configReloadLock, g4⟩]

/-- The effect trace of a reload whose loader answers with error `e`. -/
def errTrace (g : Globals) (e : String) : List Entry :=
  let g1 : Globals := { g with held := [tokenHeld] }
  [⟨Event.mutexLock Lock.configReloadLock, g⟩,
   ⟨Event.loadConfiguration, g1⟩,
   ⟨Event.logPrintln ("Error reloading configuration: " ++ e), g1⟩,
   ⟨Event.mutexUnlock Lock.configReloadLock, g1⟩]

/-- The `os.Remove` entries of the SIGTERM branch. -/
def removeEntries (g : Globals) : List Entry :=
  match g.configuration with
  | some c => if c.PIDFile ≠ "" then [⟨Event.osRemove c.PIDFile, g⟩] else []
  | none => []

/-- The effect trace of the SIGTERM branch, started with globals `g`, the
channel open and no lock held. -/
def termTrace (g : Globals) : List Entry :=
  let g1 : Globals := { g with shutdownChanClosed := true }
  let g2 : Globals := { g with shutdownChanClosed := true, held := [(Lock.configLock, Mode.read)] }
  [⟨Event.logPrintln "Received SIGTERM", g⟩,
   ⟨Event.closeShutdownChan, g⟩,
   ⟨Event.rLock Lock.configLock, g1⟩,
   ⟨Event.rUnlock Lock.configLock, g2⟩]
  ++ removeEntries g1
  ++ [⟨Event.goSleepExit (20 * timeSecond), g1⟩,
      ⟨Event.activeConnectionsWait, g1⟩,
      ⟨Event.osExit 0, g1⟩]

/-- A configuration to reload into. -/
def exampleConfig : Config :=
  ⟨"access.log", "tls.log", "content", "starlark.log", "auth.log", "redwood.pid"⟩

/-- A configuration in force before a reload, with no PID file. -/
def oldConfig : Config :=
  ⟨"old-access.log", "old-tls.log", "old-content", "old-starlark.log", "old-auth.log", ""⟩

/-- Collaborators whose loader answers with `exampleConfig` and whose sinks all
fail to reopen. -/
def exampleEnv : Env :=
  ⟨(some exampleConfig, none), fun _ _ => false, fun a b => a ++ "/" ++ b⟩

/-- Collaborators whose loader fails. -/
def failingEnv : Env :=
  ⟨(none, some "no such file"), fun _ _ => true, fun a b => a ++ "/" ++ b⟩

/-- Globals with `oldConfig` in force, two registered sinks at "x.log" and
"y.log", the channel open and no lock held. -/
def exampleGlobals : Globals :=
  ⟨some oldConfig, [("x.log", 0), ("y.log", 1)], false, []⟩

/-- Globals of a process whose Config Store was never populated. -/
def freshGlobals : Globals := ⟨none, [], false, []⟩

/-- Triggers with a duplicate SIGTERM and reloads on both sides of it. -/
def exampleTriggers : List Trigger :=
  [Trigger.sighup exampleEnv, Trigger.sigterm, Trigger.sighup failingEnv, Trigger.sigterm]

/-- How many times the trace calls `Open` on sink `s` with path `p`. -/
def openCount (t : List Entry) (s : Sink) (p : String) : Nat :=
  (opens t).countP fun x => decide (x = (s, p))

/-- The part of a trace after the first close of `shutdownChan`. -/
def afterClose : List Entry → List Entry
  | [] => []
  | x :: rest => if x.event = Event.closeShutdownChan then rest else afterClose rest

/-- A piece of trace closes `shutdownChan` at most once, only while it is open,
and begins no reload after the close. -/
def ClosesOnce (t : List Entry) : Prop :=
  closeCount t ≤ 1
    ∧ (∀ x ∈ t, x.event = Event.closeShutdownChan → x.pre.shutdownChanClosed = false)
    ∧ (∀ y ∈ afterClose t, y.event.startsReload = false ∧ y.pre.shutdownChanClosed = true)

/-- How many entries of the trace carry the effect `e`. -/
def eventCount (t : List Entry) (e : Event) : Nat :=
  t.countP fun x => decide (x.event = e)

/-- Is the effect an `Open` call on a sink of `customLogs`? -/
def Event.isCustomOpen : Event → Bool
  | Event.sinkOpen (Sink.custom _) _ _ => true
  | _ => false

/-- The statement of C9: no `Open` on a sink of `customLogs` starts while the
running path holds `customLogLock`. -/
def NoCustomOpenUnderRegistryLock (t : List Entry) : Prop :=
  ∀ x ∈ t, x.event.isCustomOpen = true → holds Lock.customLogLock x.pre.held = false

instance (t : List Entry) : Decidable (NoCustomOpenUnderRegistryLock t) :=
  inferInstanceAs (Decidable (∀ x ∈ t, x.event.isCustomOpen = true →
    holds Lock.customLogLock x.pre.held = false))

/-- The statement of C10 about one point of the execution: at most one of the
three locks is held, or `configLock` is write-held inside the reload token. -/
def OnlyConfigLockInsideToken (h : List (Lock × Mode)) : Prop :=
  h.length ≤ 1 ∨ h = [(Lock.configLock, Mode.write), tokenHeld]

instance (h : List (Lock × Mode)) : Decidable (OnlyConfigLockInsideToken h) :=
  inferInstanceAs (Decidable (h.length ≤ 1 ∨ h = [(Lock.configLock, Mode.write), tokenHeld]))

/-! ## Evaluation lemmas -/

theorem bind_apply {α β : Type} (x : Exec α) (f : α → Exec β) (w : World) :
    (x >>= f) w = match x w with
      | Except.ok (a, w1) => f a w1
      | Except.error e => Except.error e := rfl

theorem pure_apply {α : Type} (a : α) (w : World) :
    (pure a : Exec α) w = Except.ok (a, w) := rfl

theorem emit_apply (e : Event) (w : World) :
    emit e w = Except.ok ((), ⟨w.g, w.trace ++ [⟨e, w.g⟩]⟩) := rfl

theorem openCustomLogs_apply (env : Env) (logs : List (String × Nat)) (w : World) :
    openCustomLogs env logs w
      = Except.ok ((), ⟨w.g, w.trace ++ customEntries env w.g logs⟩) := by
  induction logs generalizing w with
  | nil => simp [openCustomLogs, pure_apply, customEntries]
  | cons e rest ih =>
    obtain ⟨p, l⟩ := e
    simp [openCustomLogs, bind_apply, sinkOpen, emit_apply, ih, customEntries]

theorem reloadConfig_ok_apply (env : Env) (w : World) (c : Config)
    (hh : w.g.held = []) (hl : env.loadConfiguration = (some c, none)) :
    reloadConfig env w
      = Except.ok (none, ⟨{ w.g with configuration := some c },
          w.trace ++ okTrace env w.g c⟩) := by
  obtain ⟨⟨conf, logs, closed, held⟩, t⟩ := w
  simp only at hh
  subst hh
  simp [reloadConfig, reloadConfigBody, reopenAll, hl, bind_apply, pure_apply, emit_apply,
    mutexLock, mutexUnlock, setHeld, holds, storeConfiguration, readCustomLogs, sinkOpen,
    openCustomLogs_apply, okTrace, tokenHeld, openEntry]

theorem reloadConfig_err_apply (env : Env) (w : World) (x : Option Config) (e : String)
    (hh : w.g.held = []) (hl : env.loadConfiguration = (x, some e)) :
    reloadConfig env w = Except.ok (some e, ⟨w.g, w.trace ++ errTrace w.g e⟩) := by
  obtain ⟨⟨conf, logs, closed, held⟩, t⟩ := w
  simp only at hh
  subst hh
  simp [reloadConfig, reloadConfigBody, hl, bind_apply, pure_apply, emit_apply,
    mutexLock, mutexUnlock, setHeld, holds, errTrace, tokenHeld]

theorem handleSigterm_apply (w : World)
    (hh : w.g.held = []) (hc : w.g.shutdownChanClosed = false) :
    handleSigterm w
      = Except.ok ((), ⟨{ w.g with shutdownChanClosed := true },
          w.trace ++ termTrace w.g⟩) := by
  obtain ⟨⟨conf, logs, closed, held⟩, t⟩ := w
  simp only at hh hc
  subst hh hc
  cases conf with
  | none =>
    simp [handleSigterm, getConfig, closeShutdownChan, readConfiguration, rLock, rUnlock,
      bind_apply, pure_apply, emit_apply, setHeld, termTrace, removeEntries]
  | some c =>
    by_cases hp : c.PIDFile = ""
    · simp [handleSigterm, getConfig, closeShutdownChan, readConfiguration, rLock, rUnlock,
        bind_apply, pure_apply, emit_apply, setHeld, termTrace, removeEntries, hp]
    · simp [handleSigterm, getConfig, closeShutdownChan, readConfiguration, rLock, rUnlock,
        bind_apply, pure_apply, emit_apply, setHeld, termTrace, removeEntries, hp]

theorem currentConfig_of_not_write_held (g : Globals)
    (h : (Lock.configLock, Mode.write) ∉ g.held) :
    currentConfig g = Except.ok g.configuration := by
  simp [currentConfig, run, getConfig, readConfiguration, rLock, rUnlock, bind_apply,
    pure_apply, emit_apply, setHeld, h]

theorem run_reloadConfig_ok (env : Env) (g : Globals) (c : Config)
    (hh : g.held = []) (hl : env.loadConfiguration = (some c, none)) :
    run (reloadConfig env) g
      = Except.ok (none, ⟨{ g with configuration := some c }, okTrace env g c⟩) := by
  simpa [run] using reloadConfig_ok_apply env ⟨g, []⟩ c hh hl

theorem run_reloadConfig_err (env : Env) (g : Globals) (x : Option Config) (e : String)
    (hh : g.held = []) (hl : env.loadConfiguration = (x, some e)) :
    run (reloadConfig env) g = Except.ok (some e, ⟨g, errTrace g e⟩) := by
  simpa [run] using reloadConfig_err_apply env ⟨g, []⟩ x e hh hl

theorem opens_append (a b : List Entry) : opens (a ++ b) = opens a ++ opens b := by
  simp [opens]

theorem opens_customEntries (env : Env) (g : Globals) (logs : List (String × Nat)) :
    opens (customEntries env g logs) = logs.map fun e => (Sink.custom e.2, e.1) := by
  induction logs with
  | nil => rfl
  | cons e rest ih =>
    simp only [customEntries, List.map_cons] at ih ⊢
    simp [opens, Event.opened] at ih ⊢
    exact ih

theorem opens_okTrace (env : Env) (g : Globals) (c : Config) :
    opens (okTrace env g c)
      = [(Sink.accessLog, c.AccessLog), (Sink.tlsLog, c.TLSLog),
         (Sink.contentLog, env.filepathJoin c.ContentLogDir "index.csv"),
         (Sink.starlarkLog, c.StarlarkLog), (Sink.authLog, c.AuthLog)]
        ++ g.customLogs.map fun e => (Sink.custom e.2, e.1) := by
  simp only [okTrace, opens_append, opens_customEntries]
  simp [opens, Event.opened, openEntry]

theorem mem_afterClose_of_split (a b : List Entry) (x y : Entry)
    (hx : x.event = Event.closeShutdownChan) (hy : y ∈ b) :
    y ∈ afterClose (a ++ x :: b) := by
  induction a with
  | nil => simpa [afterClose, hx] using hy
  | cons z a ih =>
    by_cases hz : z.event = Event.closeShutdownChan
    · simp [afterClose, hz, hy]
    · simpa [afterClose, hz] using ih

theorem afterClose_append_of_noClose (p t : List Entry)
    (hp : ∀ x ∈ p, x.event ≠ Event.closeShutdownChan) :
    afterClose (p ++ t) = afterClose t := by
  induction p with
  | nil => rfl
  | cons z p ih =>
    have hz : z.event ≠ Event.closeShutdownChan := hp z (by simp)
    simp only [List.cons_append, afterClose, hz, if_false]
    exact ih fun x hx => hp x (by simp [hx])

theorem closeCount_append_of_noClose (p t : List Entry)
    (hp : ∀ x ∈ p, x.event ≠ Event.closeShutdownChan) :
    closeCount (p ++ t) = closeCount t := by
  have h0 : closeCount p = 0 := by
    simp only [closeCount, List.countP_eq_zero]
    intro x hx
    simpa using hp x hx
  simp only [closeCount, List.countP_append] at h0 ⊢
  omega

theorem okTrace_noClose (env : Env) (g : Globals) (c : Config) :
    ∀ x ∈ okTrace env g c, x.event ≠ Event.closeShutdownChan := by
  intro x hx
  simp only [okTrace, customEntries, List.mem_append, List.mem_map, List.mem_cons,
    List.mem_singleton, List.not_mem_nil, or_false, openEntry] at hx
  rcases hx with (hx | ⟨e, -, rfl⟩) | hx
  · rcases hx with h | h | h | h | h | h | h | h | h | h | h <;> simp [h]
  · simp
  · rcases hx with h | h | h | h <;> simp [h]

theorem errTrace_noClose (g : Globals) (e : String) :
    ∀ x ∈ errTrace g e, x.event ≠ Event.closeShutdownChan := by
  intro x hx
  simp only [errTrace, List.mem_cons, List.mem_singleton, List.not_mem_nil, or_false] at hx
  rcases hx with h | h | h | h <;> simp [h]

theorem closesOnce_prepend (p t : List Entry)
    (hp : ∀ x ∈ p, x.event ≠ Event.closeShutdownChan) (ht : ClosesOnce t) :
    ClosesOnce (p ++ t) := by
  refine ⟨?_, ?_, ?_⟩
  · rw [closeCount_append_of_noClose p t hp]; exact ht.1
  · intro x hx hc
    rcases List.mem_append.mp hx with h | h
    · exact absurd hc (hp x h)
    · exact ht.2.1 x h hc
  · rw [afterClose_append_of_noClose p t hp]; exact ht.2.2

theorem termTrace_closesOnce (g : Globals) (hc : g.shutdownChanClosed = false) :
    ClosesOnce (termTrace g) ∧ closeCount (termTrace g) = 1 := by
  have hr : ∀ x ∈ removeEntries { g with shutdownChanClosed := true },
      x.event ≠ Event.closeShutdownChan ∧ x.event.startsReload = false
        ∧ x.pre.shutdownChanClosed = true := by
    intro x hx
    unfold removeEntries at hx
    split at hx
    · split at hx
      · simp only [List.mem_singleton] at hx
        subst hx
        simp [Event.startsReload]
      · simp at hx
    · simp at hx
  have hcount : closeCount (termTrace g) = 1 := by
    have h0 : closeCount (removeEntries { g with shutdownChanClosed := true }) = 0 := by
      simp only [closeCount, List.countP_eq_zero]
      intro x hx
      simpa using (hr x hx).1
    simp only [closeCount] at h0
    simp [termTrace, closeCount, List.countP_append, List.countP_cons, h0]
  refine ⟨⟨by omega, ?_, ?_⟩, hcount⟩
  · intro x hx hcl
    simp only [termTrace, List.mem_append, List.mem_cons, List.mem_singleton,
      List.not_mem_nil, or_false] at hx
    rcases hx with (hx | hx) | hx
    · rcases hx with h | h | h | h <;> simp_all
    · exact absurd hcl (hr x hx).1
    · rcases hx with h | h | h <;> simp_all
  · intro y hy
    simp [termTrace, afterClose] at hy
    rcases hy with h | h | h | h | h | h
    · subst h; simp [Event.startsReload]
    · subst h; simp [Event.startsReload]
    · exact (hr y h).2
    · subst h; simp [Event.startsReload]
    · subst h; simp [Event.startsReload]
    · subst h; simp [Event.startsReload]

theorem signalLoop_apply (ts : List Trigger) (w : World)
    (hh : w.g.held = []) (hc : w.g.shutdownChanClosed = false)
    (hl : ∀ env, Trigger.sighup env ∈ ts → env.loadConfiguration ≠ (none, none)) :
    ∃ g ext, signalLoop ts w = Except.ok ((), ⟨g, w.trace ++ ext⟩)
      ∧ ClosesOnce ext
      ∧ (Trigger.sigterm ∈ ts → closeCount ext = 1 ∧ g.shutdownChanClosed = true) := by
  induction ts generalizing w with
  | nil =>
    refine ⟨w.g, [], by simp [signalLoop, pure_apply], ?_, by simp⟩
    simp [ClosesOnce, closeCount, afterClose]
  | cons t rest ih =>
    cases t with
    | sigterm =>
      refine ⟨{ w.g with shutdownChanClosed := true }, termTrace w.g, ?_,
        (termTrace_closesOnce w.g hc).1, fun _ => ⟨(termTrace_closesOnce w.g hc).2, rfl⟩⟩
      simp only [signalLoop]
      exact handleSigterm_apply w hh hc
    | sighup env =>
      have hne : env.loadConfiguration ≠ (none, none) := hl env (by simp)
      have hrest : ∀ e, Trigger.sighup e ∈ rest → e.loadConfiguration ≠ (none, none) :=
        fun e he => hl e (by simp [he])
      rcases hq : env.loadConfiguration with ⟨x, err⟩
      cases err with
      | some e =>
        obtain ⟨g2, ext, hrun, hgood, hterm⟩ :=
          ih ⟨w.g, (w.trace ++ [⟨Event.logPrintln "Received SIGHUP", w.g⟩]) ++ errTrace w.g e⟩
            hh hc hrest
        refine ⟨g2, (⟨Event.logPrintln "Received SIGHUP", w.g⟩ :: errTrace w.g e) ++ ext,
          ?_, ?_, ?_⟩
        · have h2 := reloadConfig_err_apply env
            (World.mk w.g (w.trace ++ [Entry.mk (Event.logPrintln "Received SIGHUP") w.g]))
            x e hh hq
          simp only [signalLoop, bind_apply, emit_apply, h2]
          simpa using hrun
        · apply closesOnce_prepend _ _ _ hgood
          intro y hy
          rcases List.mem_cons.mp hy with h | h
          · simp [h]
          · exact errTrace_noClose _ _ y h
        · intro hm
          have hm2 : Trigger.sigterm ∈ rest := by simpa using hm
          refine ⟨?_, (hterm hm2).2⟩
          rw [closeCount_append_of_noClose]
          · exact (hterm hm2).1
          · intro y hy
            rcases List.mem_cons.mp hy with h | h
            · simp [h]
            · exact errTrace_noClose _ _ y h
      | none =>
        cases x with
        | none => exact absurd hq hne
        | some c =>
          obtain ⟨g2, ext, hrun, hgood, hterm⟩ :=
            ih ⟨{ w.g with configuration := some c },
                (w.trace ++ [⟨Event.logPrintln "Received SIGHUP", w.g⟩]) ++ okTrace env w.g c⟩
              hh hc hrest
          refine ⟨g2, (⟨Event.logPrintln "Received SIGHUP", w.g⟩ :: okTrace env w.g c) ++ ext,
            ?_, ?_, ?_⟩
          · have h2 := reloadConfig_ok_apply env
              (World.mk w.g (w.trace ++ [Entry.mk (Event.logPrintln "Received SIGHUP") w.g]))
              c hh hq
            simp only [signalLoop, bind_apply, emit_apply, h2]
            simpa using hrun
          · apply closesOnce_prepend _ _ _ hgood
            intro y hy
            rcases List.mem_cons.mp hy with h | h
            · simp [h]
            · exact okTrace_noClose _ _ _ y h
          · intro hm
            have hm2 : Trigger.sigterm ∈ rest := by simpa using hm
            refine ⟨?_, (hterm hm2).2⟩
            rw [closeCount_append_of_noClose]
            · exact (hterm hm2).1
            · intro y hy
              rcases List.mem_cons.mp hy with h | h
              · simp [h]
              · exact okTrace_noClose _ _ _ y h

theorem signalLoop_stops_at_sigterm (a b : List Trigger) :
    signalLoop (a ++ Trigger.sigterm :: b) = signalLoop (a ++ [Trigger.sigterm]) := by
  induction a with
  | nil => rfl
  | cons t a ih =>
    cases t with
    | sigterm => rfl
    | sighup env => simp only [List.cons_append, signalLoop, List.append_eq, ih]

theorem mem_okTrace_held (env : Env) (g : Globals) (c : Config) (hh : g.held = [])
    (x : Entry) (hx : x ∈ okTrace env g c) :
    x.pre.held = [] ∨ x.pre.held = [tokenHeld]
      ∨ x.pre.held = [(Lock.configLock, Mode.write), tokenHeld]
      ∨ x.pre.held = [(Lock.customLogLock, Mode.write), tokenHeld] := by
  simp only [okTrace, customEntries, List.mem_append, List.mem_map, List.mem_cons,
    List.mem_singleton, List.not_mem_nil, or_false, openEntry] at hx
  rcases hx with (hx | ⟨e, -, rfl⟩) | hx
  · rcases hx with h | h | h | h | h | h | h | h | h | h | h <;> simp [h, hh]
  · simp
  · rcases hx with h | h | h | h <;> simp [h]

theorem mem_okTrace_open (env : Env) (g : Globals) (c : Config)
    (x : Entry) (hx : x ∈ okTrace env g c) (ho : x.event.opened ≠ none) :
    x.pre.configuration = some c ∧ (Lock.configLock, Mode.write) ∉ x.pre.held := by
  simp only [okTrace, customEntries, List.mem_append, List.mem_map, List.mem_cons,
    List.mem_singleton, List.not_mem_nil, or_false, openEntry] at hx
  rcases hx with (hx | ⟨e, -, rfl⟩) | hx
  · rcases hx with h | h | h | h | h | h | h | h | h | h | h <;>
      simp_all [Event.opened, tokenHeld]
  · simp [tokenHeld]
  · rcases hx with h | h | h | h <;> simp_all [Event.opened, tokenHeld]

/-! ## The reload sequencer -/

/-- C1: when `loadConfiguration` returns an error `e` (whatever pointer comes
with it), `reloadConfig` started with no lock held returns exactly `e` and
leaves the globals as they were; `getConfig` returns the same configuration
before and after (the nil one included), the trace holds no `Open` call on any
sink and no `openPerUserPorts` call. -/
theorem reloadConfig_load_failure (env : Env) (g : Globals) (x : Option Config) (e : String)
    (hh : g.held = []) (hl : env.loadConfiguration = (x, some e)) :
    ∃ w, run (reloadConfig env) g = Except.ok (some e, w)
      ∧ w.g = g
      ∧ currentConfig g = Except.ok g.configuration
      ∧ currentConfig w.g = Except.ok g.configuration
      ∧ opens w.trace = []
      ∧ portsCalls w.trace = [] := by
  have hc : currentConfig g = Except.ok g.configuration :=
    currentConfig_of_not_write_held g (by simp [hh])
  refine ⟨_, run_reloadConfig_err env g x e hh hl, rfl, hc, hc, ?_, ?_⟩
  · simp [errTrace, opens, Event.opened]
  · simp [errTrace, portsCalls]

/-- Witness of C1: a failing loader with `oldConfig` in force. -/
theorem reloadConfig_load_failure_witness :
    exampleGlobals.held = [] ∧ failingEnv.loadConfiguration = (none, some "no such file")
      ∧ ∃ w, run (reloadConfig failingEnv) exampleGlobals = Except.ok (some "no such file", w)
        ∧ w.g = exampleGlobals
        ∧ currentConfig exampleGlobals = Except.ok exampleGlobals.configuration
        ∧ currentConfig w.g = Except.ok exampleGlobals.configuration
        ∧ opens w.trace = []
        ∧ portsCalls w.trace = [] :=
  ⟨rfl, rfl, reloadConfig_load_failure failingEnv exampleGlobals none "no such file" rfl rfl⟩

/-- C2: for every prior state with no lock held and every answer of the loader
(an error, or a non-nil configuration with a nil error) and every outcome of
the sink `Open` calls, `reloadConfig` returns; it returns an error exactly when
the loader failed, and when the loader answered with configuration `c` it
returns nil and a `getConfig` made afterwards returns `c`. -/
theorem reloadConfig_error_iff_loader_failed (env : Env) (g : Globals)
    (hh : g.held = []) (hl : env.loadConfiguration ≠ (none, none)) :
    ∃ r w, run (reloadConfig env) g = Except.ok (r, w)
      ∧ (r ≠ none ↔ env.loadConfiguration.2 ≠ none)
      ∧ (∀ c, env.loadConfiguration = (some c, none) →
          r = none ∧ currentConfig w.g = Except.ok (some c)) := by
  rcases hq : env.loadConfiguration with ⟨x, err⟩
  cases err with
  | some e =>
    refine ⟨some e, _, run_reloadConfig_err env g x e hh hq, by simp, ?_⟩
    intro c hc
    simp at hc
  | none =>
    cases x with
    | none => exact absurd hq hl
    | some c =>
      refine ⟨none, _, run_reloadConfig_ok env g c hh hq, by simp, ?_⟩
      intro c2 hc
      simp only [Prod.mk.injEq, Option.some.injEq, and_true] at hc
      subst hc
      exact ⟨rfl, currentConfig_of_not_write_held _ (by simp [hh])⟩

/-- Witness of C2: the loader answers with `exampleConfig` and every sink fails
to reopen. -/
theorem reloadConfig_error_iff_loader_failed_witness :
    exampleGlobals.held = [] ∧ exampleEnv.loadConfiguration ≠ (none, none)
      ∧ ∃ r w, run (reloadConfig exampleEnv) exampleGlobals = Except.ok (r, w)
        ∧ (r ≠ none ↔ exampleEnv.loadConfiguration.2 ≠ none)
        ∧ (∀ c, exampleEnv.loadConfiguration = (some c, none) →
            r = none ∧ currentConfig w.g = Except.ok (some c)) :=
  ⟨rfl, by simp [exampleEnv],
    reloadConfig_error_iff_loader_failed exampleEnv exampleGlobals rfl (by simp [exampleEnv])⟩

/-- C3: when the loader answers with configuration `c`, the `Open` calls on the
five package-level sinks are, for every prior state, exactly one per sink, at
the path named in `c`: accessLog at `c.AccessLog`, tlsLog at `c.TLSLog`,
contentLog at "index.csv" joined onto `c.ContentLogDir`, starlarkLog at
`c.StarlarkLog` and authLog at `c.AuthLog`; the previous configuration plays no
part. -/
theorem reloadConfig_reopens_fixed_sinks (env : Env) (g : Globals) (c : Config)
    (hh : g.held = []) (hl : env.loadConfiguration = (some c, none)) :
    ∃ w, run (reloadConfig env) g = Except.ok (none, w)
      ∧ fixedOpens w.trace
        = [(Sink.accessLog, c.AccessLog), (Sink.tlsLog, c.TLSLog),
           (Sink.contentLog, env.filepathJoin c.ContentLogDir "index.csv"),
           (Sink.starlarkLog, c.StarlarkLog), (Sink.authLog, c.AuthLog)] := by
  refine ⟨_, run_reloadConfig_ok env g c hh hl, ?_⟩
  simp only [fixedOpens, opens_okTrace, List.filter_append]
  simp [Sink.isFixed, List.filter_map, Function.comp_def]

/-- Witness of C3: reloading into `exampleConfig` while `oldConfig` is in
force. -/
theorem reloadConfig_reopens_fixed_sinks_witness :
    exampleGlobals.held = [] ∧ exampleEnv.loadConfiguration = (some exampleConfig, none)
      ∧ ∃ w, run (reloadConfig exampleEnv) exampleGlobals = Except.ok (none, w)
        ∧ fixedOpens w.trace
          = [(Sink.accessLog, exampleConfig.AccessLog), (Sink.tlsLog, exampleConfig.TLSLog),
             (Sink.contentLog, exampleEnv.filepathJoin exampleConfig.ContentLogDir "index.csv"),
             (Sink.starlarkLog, exampleConfig.StarlarkLog),
             (Sink.authLog, exampleConfig.AuthLog)] :=
  ⟨rfl, rfl, reloadConfig_reopens_fixed_sinks exampleEnv exampleGlobals exampleConfig rfl rfl⟩

/-- C4: for every registry `customLogs` (a map, so with distinct keys) and
every configuration the loader answers with, the `Open` calls on registered
sinks are exactly the registry entries in iteration order, each sink with its
own key as the path: every entry is opened exactly once, no registered sink is
opened at any other path, and the registry is the same after the reload. -/
theorem reloadConfig_reopens_custom_sinks (env : Env) (g : Globals) (c : Config)
    (hh : g.held = []) (hl : env.loadConfiguration = (some c, none))
    (hk : (g.customLogs.map Prod.fst).Nodup) :
    ∃ w, run (reloadConfig env) g = Except.ok (none, w)
      ∧ customOpens w.trace = g.customLogs.map (fun e => (Sink.custom e.2, e.1))
      ∧ (∀ p l, (p, l) ∈ g.customLogs → openCount w.trace (Sink.custom l) p = 1)
      ∧ (∀ p l, (Sink.custom l, p) ∈ opens w.trace → (p, l) ∈ g.customLogs)
      ∧ w.g.customLogs = g.customLogs := by
  have hnd : (g.customLogs.map fun e => (Sink.custom e.2, e.1)).Nodup := by
    have h1 : g.customLogs.Nodup := List.Nodup.of_map _ hk
    refine List.Nodup.map ?_ h1
    rintro ⟨p1, l1⟩ ⟨p2, l2⟩ h
    simp at h
    simp [h.1, h.2]
  refine ⟨_, run_reloadConfig_ok env g c hh hl, ?_, ?_, ?_, rfl⟩
  · simp only [customOpens, opens_okTrace, List.filter_append]
    simp [Sink.isFixed, List.filter_map, Function.comp_def]
  · intro p l hm
    simp only [openCount, opens_okTrace, List.countP_append]
    have hin : (Sink.custom l, p) ∈ g.customLogs.map (fun e => (Sink.custom e.2, e.1)) :=
      List.mem_map.mpr ⟨(p, l), hm, rfl⟩
    have h1 : List.countP (fun x => decide (x = (Sink.custom l, p)))
        (g.customLogs.map (fun e => (Sink.custom e.2, e.1))) = 1 :=
      List.count_eq_one_of_mem hnd hin
    rw [h1]
    simp [List.countP_cons]
  · intro p l hm
    simp only [opens_okTrace, List.mem_append, List.mem_map] at hm
    rcases hm with hm | ⟨⟨q, k⟩, hq, he⟩
    · simp at hm
    · simp at he
      obtain ⟨rfl, rfl⟩ := he
      exact hq

/-- Witness of C4: sinks registered at "x.log" and "y.log", neither mentioned
by `exampleConfig`. -/
theorem reloadConfig_reopens_custom_sinks_witness :
    exampleGlobals.held = [] ∧ exampleEnv.loadConfiguration = (some exampleConfig, none)
      ∧ (exampleGlobals.customLogs.map Prod.fst).Nodup
      ∧ ∃ w, run (reloadConfig exampleEnv) exampleGlobals = Except.ok (none, w)
        ∧ customOpens w.trace
            = exampleGlobals.customLogs.map (fun e => (Sink.custom e.2, e.1))
        ∧ (∀ p l, (p, l) ∈ exampleGlobals.customLogs →
            openCount w.trace (Sink.custom l) p = 1)
        ∧ (∀ p l, (Sink.custom l, p) ∈ opens w.trace → (p, l) ∈ exampleGlobals.customLogs)
        ∧ w.g.customLogs = exampleGlobals.customLogs :=
  ⟨rfl, rfl, by simp [exampleGlobals],
    reloadConfig_reopens_custom_sinks exampleEnv exampleGlobals exampleConfig rfl rfl
      (by simp [exampleGlobals])⟩

/-- C8: in the trace of every successful reload the store of the new
configuration `c` comes before every sink `Open` call, `openPerUserPorts` is
invoked exactly once, on `c`, after the store and after every `Open` call, and
at the time of every `Open` call and of the `openPerUserPorts` call `getConfig`
returns `c`. -/
theorem reloadConfig_swap_before_opens (env : Env) (g : Globals) (c : Config)
    (hh : g.held = []) (hl : env.loadConfiguration = (some c, none)) :
    ∃ w, run (reloadConfig env) g = Except.ok (none, w)
      ∧ (∃ pre s mid q post, w.trace = pre ++ s :: (mid ++ q :: post)
          ∧ s.event = Event.store (some c) ∧ q.event = Event.openPerUserPorts c
          ∧ opens pre = [] ∧ opens post = [] ∧ opens mid = opens w.trace
          ∧ currentConfig q.pre = Except.ok (some c))
      ∧ portsCalls w.trace = [c]
      ∧ (∀ x ∈ w.trace, x.event.opened ≠ none → currentConfig x.pre = Except.ok (some c)) := by
  refine ⟨_, run_reloadConfig_ok env g c hh hl, ?_, ?_, ?_⟩
  · refine ⟨[⟨Event.mutexLock Lock.configReloadLock, g⟩,
        ⟨Event.loadConfiguration, { g with held := [tokenHeld] }⟩,
        ⟨Event.mutexLock Lock.configLock, { g with held := [tokenHeld] }⟩],
      ⟨Event.store (some c), { g with held := [(Lock.configLock, Mode.write), tokenHeld] }⟩,
      (okTrace env g c).drop 4 |>.dropLast |>.dropLast |>.dropLast,
      ⟨Event.openPerUserPorts c, { g with configuration := some c, held := [tokenHeld] }⟩,
      [⟨Event.logPrintln "Reloaded configuration",
          { g with configuration := some c, held := [tokenHeld] }⟩,
       ⟨Event.mutexUnlock Lock.configReloadLock,
          { g with configuration := some c, held := [tokenHeld] }⟩],
      ?_, rfl, rfl, ?_, ?_, ?_, ?_⟩
    · simp [okTrace, List.dropLast_append_cons, List.dropLast]
    · simp [opens, Event.opened]
    · simp [opens, Event.opened]
    · simp [okTrace, List.dropLast_append_cons, List.dropLast, opens, Event.opened, openEntry]
    · exact currentConfig_of_not_write_held _ (by simp [tokenHeld])
  · simp [okTrace, portsCalls, customEntries, openEntry, List.filterMap_append,
      List.filterMap_map, Function.comp_def]
  · intro x hx ho
    obtain ⟨h1, h2⟩ := mem_okTrace_open env g c x hx ho
    rw [currentConfig_of_not_write_held _ h2, h1]

/-- Witness of C8: reloading into `exampleConfig` with two registered sinks. -/
theorem reloadConfig_swap_before_opens_witness :
    exampleGlobals.held = [] ∧ exampleEnv.loadConfiguration = (some exampleConfig, none)
      ∧ ∃ w, run (reloadConfig exampleEnv) exampleGlobals = Except.ok (none, w)
        ∧ (∃ pre s mid q post, w.trace = pre ++ s :: (mid ++ q :: post)
            ∧ s.event = Event.store (some exampleConfig)
            ∧ q.event = Event.openPerUserPorts exampleConfig
            ∧ opens pre = [] ∧ opens post = [] ∧ opens mid = opens w.trace
            ∧ currentConfig q.pre = Except.ok (some exampleConfig))
        ∧ portsCalls w.trace = [exampleConfig]
        ∧ (∀ x ∈ w.trace, x.event.opened ≠ none →
            currentConfig x.pre = Except.ok (some exampleConfig)) :=
  ⟨rfl, rfl, reloadConfig_swap_before_opens exampleEnv exampleGlobals exampleConfig rfl rfl⟩

/-- C9, the statement refuted: reloading into `exampleConfig` with sinks
registered at "x.log" and "y.log" succeeds, and its trace has an `Open` call on
a registered sink that starts while `customLogLock` is held. -/
theorem registry_lock_held_during_open :
    ∃ w, run (reloadConfig exampleEnv) exampleGlobals = Except.ok (none, w)
      ∧ ¬ NoCustomOpenUnderRegistryLock w.trace := by
  refine ⟨_, run_reloadConfig_ok exampleEnv exampleGlobals exampleConfig rfl rfl, ?_⟩
  intro h
  have h1 := h ⟨Event.sinkOpen (Sink.custom 0) "x.log" false,
      { exampleGlobals with configuration := some exampleConfig,
                            held := [(Lock.customLogLock, Mode.write), tokenHeld] }⟩
    (by simp [okTrace, customEntries, exampleGlobals, exampleEnv]) rfl
  simp [holds] at h1

/-- C9 amended: in the trace of every successful reload `customLogLock` is
taken once and released once, between the two lie exactly the `Open` calls on
the registered sinks, every such call starts while the lock is held (together
with the reload token), and nothing else but the release does. -/
theorem reloadConfig_registry_lock_spans_opens (env : Env) (g : Globals) (c : Config)
    (hh : g.held = []) (hl : env.loadConfiguration = (some c, none)) :
    ∃ w, run (reloadConfig env) g = Except.ok (none, w)
      ∧ (∃ pre post, w.trace.map Entry.event
          = pre ++ Event.mutexLock Lock.customLogLock
            :: (g.customLogs.map (fun e =>
                  Event.sinkOpen (Sink.custom e.2) e.1 (env.sinkOpen (Sink.custom e.2) e.1))
                ++ Event.mutexUnlock Lock.customLogLock :: post))
      ∧ (∀ x ∈ w.trace, x.event.isCustomOpen = true →
          x.pre.held = [(Lock.customLogLock, Mode.write), tokenHeld])
      ∧ (∀ x ∈ w.trace, holds Lock.customLogLock x.pre.held = true →
          x.event.isCustomOpen = true ∨ x.event = Event.mutexUnlock Lock.customLogLock)
      ∧ eventCount w.trace (Event.mutexLock Lock.customLogLock) = 1
      ∧ eventCount w.trace (Event.mutexUnlock Lock.customLogLock) = 1 := by
  have hz : ∀ (e : Event) (gg : Globals), (∀ s p ok, e ≠ Event.sinkOpen s p ok) →
      List.countP (fun x : Entry => decide (x.event = e))
        (customEntries env gg g.customLogs) = 0 := by
    intro e gg he
    simp only [List.countP_eq_zero, customEntries, List.mem_map]
    rintro x ⟨a, -, rfl⟩
    simpa using fun h => he _ _ _ h.symm
  refine ⟨_, run_reloadConfig_ok env g c hh hl, ?_, ?_, ?_, ?_, ?_⟩
  · refine ⟨((okTrace env g c).take 10).map Entry.event,
      [Event.openPerUserPorts c, Event.logPrintln "Reloaded configuration",
       Event.mutexUnlock Lock.configReloadLock], ?_⟩
    simp [okTrace, customEntries, openEntry, Function.comp_def]
  · intro x hx he
    simp only [okTrace, customEntries, List.mem_append, List.mem_map, List.mem_cons,
      List.mem_singleton, List.not_mem_nil, or_false, openEntry] at hx
    rcases hx with (hx | ⟨e, -, rfl⟩) | hx
    · rcases hx with h | h | h | h | h | h | h | h | h | h | h <;>
        (subst h; simp [Event.isCustomOpen] at he)
    · rfl
    · rcases hx with h | h | h | h <;> (subst h; simp [Event.isCustomOpen] at he)
  · intro x hx hheld
    simp only [okTrace, customEntries, List.mem_append, List.mem_map, List.mem_cons,
      List.mem_singleton, List.not_mem_nil, or_false, openEntry] at hx
    rcases hx with (hx | ⟨e, -, rfl⟩) | hx
    · rcases hx with h | h | h | h | h | h | h | h | h | h | h <;>
        (subst h; simp [holds, tokenHeld, hh] at hheld)
    · exact Or.inl rfl
    · rcases hx with h | h | h | h <;>
        (subst h; first | exact Or.inr rfl | simp [holds, tokenHeld] at hheld)
  · have h0 := fun gg => hz (Event.mutexLock Lock.customLogLock) gg (by simp)
    simp only [eventCount, okTrace, List.countP_append, h0]
    simp [List.countP_cons, openEntry]
  · have h0 := fun gg => hz (Event.mutexUnlock Lock.customLogLock) gg (by simp)
    simp only [eventCount, okTrace, List.countP_append, h0]
    simp [List.countP_cons, openEntry]

/-- Witness of C9 amended: reloading into `exampleConfig` with sinks registered
at "x.log" and "y.log". -/
theorem reloadConfig_registry_lock_spans_opens_witness :
    exampleGlobals.held = [] ∧ exampleEnv.loadConfiguration = (some exampleConfig, none)
      ∧ ∃ w, run (reloadConfig exampleEnv) exampleGlobals = Except.ok (none, w)
        ∧ (∃ pre post, w.trace.map Entry.event
            = pre ++ Event.mutexLock Lock.customLogLock
              :: (exampleGlobals.customLogs.map (fun e =>
                    Event.sinkOpen (Sink.custom e.2) e.1
                      (exampleEnv.sinkOpen (Sink.custom e.2) e.1))
                  ++ Event.mutexUnlock Lock.customLogLock :: post))
        ∧ (∀ x ∈ w.trace, x.event.isCustomOpen = true →
            x.pre.held = [(Lock.customLogLock, Mode.write), tokenHeld])
        ∧ (∀ x ∈ w.trace, holds Lock.customLogLock x.pre.held = true →
            x.event.isCustomOpen = true ∨ x.event = Event.mutexUnlock Lock.customLogLock)
        ∧ eventCount w.trace (Event.mutexLock Lock.customLogLock) = 1
        ∧ eventCount w.trace (Event.mutexUnlock Lock.customLogLock) = 1 :=
  ⟨rfl, rfl,
    reloadConfig_registry_lock_spans_opens exampleEnv exampleGlobals exampleConfig rfl rfl⟩

/-- C10, the statement refuted: reloading into `exampleConfig` succeeds, and
at one point of its execution `customLogLock` and the reload token are held
together. -/
theorem registry_lock_held_inside_token :
    ∃ w, run (reloadConfig exampleEnv) exampleGlobals = Except.ok (none, w)
      ∧ ¬ (∀ x ∈ w.trace, OnlyConfigLockInsideToken x.pre.held) := by
  refine ⟨_, run_reloadConfig_ok exampleEnv exampleGlobals exampleConfig rfl rfl, ?_⟩
  intro h
  have h1 := h ⟨Event.mutexUnlock Lock.customLogLock,
      { exampleGlobals with configuration := some exampleConfig,
                            held := [(Lock.customLogLock, Mode.write), tokenHeld] }⟩
    (by simp [okTrace, customEntries, exampleGlobals, exampleEnv])
  simp [OnlyConfigLockInsideToken, tokenHeld] at h1

/-- C10 amended: on both return paths of `reloadConfig`, at every point of the
execution the locks held are none, the reload token alone, `configLock`
write-held inside the token, or `customLogLock` inside the token; `configLock`
and `customLogLock` are never held together, and no lock is held when the
function returns. -/
theorem reloadConfig_lock_nesting (env : Env) (g : Globals)
    (hh : g.held = []) (hl : env.loadConfiguration ≠ (none, none)) :
    ∃ r w, run (reloadConfig env) g = Except.ok (r, w)
      ∧ (∀ x ∈ w.trace, x.pre.held = [] ∨ x.pre.held = [tokenHeld]
          ∨ x.pre.held = [(Lock.configLock, Mode.write), tokenHeld]
          ∨ x.pre.held = [(Lock.customLogLock, Mode.write), tokenHeld])
      ∧ (∀ x ∈ w.trace, ¬ (holds Lock.configLock x.pre.held = true
          ∧ holds Lock.customLogLock x.pre.held = true))
      ∧ w.g.held = [] := by
  have hpair : ∀ h : List (Lock × Mode), (h = [] ∨ h = [tokenHeld]
      ∨ h = [(Lock.configLock, Mode.write), tokenHeld]
      ∨ h = [(Lock.customLogLock, Mode.write), tokenHeld]) →
      ¬ (holds Lock.configLock h = true ∧ holds Lock.customLogLock h = true) := by
    intro h hcase
    rcases hcase with rfl | rfl | rfl | rfl <;> simp [holds, tokenHeld]
  rcases hq : env.loadConfiguration with ⟨x, err⟩
  cases err with
  | some e =>
    have hall : ∀ y ∈ errTrace g e, y.pre.held = [] ∨ y.pre.held = [tokenHeld]
        ∨ y.pre.held = [(Lock.configLock, Mode.write), tokenHeld]
        ∨ y.pre.held = [(Lock.customLogLock, Mode.write), tokenHeld] := by
      intro y hy
      simp only [errTrace, List.mem_cons, List.mem_singleton, List.not_mem_nil,
        or_false] at hy
      rcases hy with h | h | h | h <;> simp [h, hh]
    exact ⟨some e, _, run_reloadConfig_err env g x e hh hq, hall,
      fun y hy => hpair _ (hall y hy), hh⟩
  | none =>
    cases x with
    | none => exact absurd hq hl
    | some c =>
      exact ⟨none, _, run_reloadConfig_ok env g c hh hq, mem_okTrace_held env g c hh,
        fun y hy => hpair _ (mem_okTrace_held env g c hh y hy), hh⟩

/-- Witness of C10 amended: reloading into `exampleConfig` with two registered
sinks. -/
theorem reloadConfig_lock_nesting_witness :
    exampleGlobals.held = [] ∧ exampleEnv.loadConfiguration ≠ (none, none)
      ∧ ∃ r w, run (reloadConfig exampleEnv) exampleGlobals = Except.ok (r, w)
        ∧ (∀ x ∈ w.trace, x.pre.held = [] ∨ x.pre.held = [tokenHeld]
            ∨ x.pre.held = [(Lock.configLock, Mode.write), tokenHeld]
            ∨ x.pre.held = [(Lock.customLogLock, Mode.write), tokenHeld])
        ∧ (∀ x ∈ w.trace, ¬ (holds Lock.configLock x.pre.held = true
            ∧ holds Lock.customLogLock x.pre.held = true))
        ∧ w.g.held = [] :=
  ⟨rfl, by simp [exampleEnv],
    reloadConfig_lock_nesting exampleEnv exampleGlobals rfl (by simp [exampleEnv])⟩

/-! ## The signal router -/

/-- C5: for every sequence of SIGHUP and SIGTERM triggers the loop receives,
started with the channel open and no lock held (each reload answered by an
error or a non-nil configuration), the loop runs without a fault;
`shutdownChan` is closed at most once (exactly once when a SIGTERM is among the
triggers) and only while it is still open; after the close no reload begins and
the channel stays closed; and the triggers after the first SIGTERM change
nothing. -/
theorem signalLoop_closes_once (ts : List Trigger) (g : Globals)
    (hh : g.held = []) (hc : g.shutdownChanClosed = false)
    (hl : ∀ env, Trigger.sighup env ∈ ts → env.loadConfiguration ≠ (none, none)) :
    ∃ w, run (signalLoop ts) g = Except.ok ((), w)
      ∧ closeCount w.trace ≤ 1
      ∧ (Trigger.sigterm ∈ ts → closeCount w.trace = 1 ∧ w.g.shutdownChanClosed = true)
      ∧ (∀ x ∈ w.trace, x.event = Event.closeShutdownChan → x.pre.shutdownChanClosed = false)
      ∧ (∀ a x b, w.trace = a ++ x :: b → x.event = Event.closeShutdownChan →
          ∀ y ∈ b, y.event.startsReload = false ∧ y.pre.shutdownChanClosed = true)
      ∧ (∀ a b, ts = a ++ Trigger.sigterm :: b →
          run (signalLoop ts) g = run (signalLoop (a ++ [Trigger.sigterm])) g) := by
  obtain ⟨g2, ext, hrun, hgood, hterm⟩ := signalLoop_apply ts ⟨g, []⟩ hh hc hl
  simp only [List.nil_append] at hrun
  refine ⟨⟨g2, ext⟩, hrun, hgood.1, hterm, hgood.2.1, ?_, ?_⟩
  · intro a x b hsplit hx y hy
    apply hgood.2.2
    have : ext = a ++ x :: b := hsplit
    rw [this]
    exact mem_afterClose_of_split a b x y hx hy
  · intro a b hsplit
    rw [hsplit, signalLoop_stops_at_sigterm]

/-- Witness of C5: a reload, a SIGTERM, a further SIGHUP and a duplicate
SIGTERM. -/
theorem signalLoop_closes_once_witness :
    exampleGlobals.held = [] ∧ exampleGlobals.shutdownChanClosed = false
      ∧ (∀ env, Trigger.sighup env ∈ exampleTriggers → env.loadConfiguration ≠ (none, none))
      ∧ ∃ w, run (signalLoop exampleTriggers) exampleGlobals = Except.ok ((), w)
        ∧ closeCount w.trace ≤ 1
        ∧ (Trigger.sigterm ∈ exampleTriggers →
            closeCount w.trace = 1 ∧ w.g.shutdownChanClosed = true)
        ∧ (∀ x ∈ w.trace, x.event = Event.closeShutdownChan →
            x.pre.shutdownChanClosed = false)
        ∧ (∀ a x b, w.trace = a ++ x :: b → x.event = Event.closeShutdownChan →
            ∀ y ∈ b, y.event.startsReload = false ∧ y.pre.shutdownChanClosed = true)
        ∧ (∀ a b, exampleTriggers = a ++ Trigger.sigterm :: b →
            run (signalLoop exampleTriggers) exampleGlobals
              = run (signalLoop (a ++ [Trigger.sigterm])) exampleGlobals) :=
  have hl : ∀ env, Trigger.sighup env ∈ exampleTriggers →
      env.loadConfiguration ≠ (none, none) := by
    intro env h
    simp only [exampleTriggers, List.mem_cons, Trigger.sighup.injEq, reduceCtorEq,
      List.mem_singleton, List.not_mem_nil, or_false, false_or] at h
    rcases h with rfl | rfl
    · simp [exampleEnv]
    · simp [failingEnv]
  ⟨rfl, rfl, hl, signalLoop_closes_once exampleTriggers exampleGlobals rfl rfl hl⟩

/-- C7: when the SIGTERM branch runs (channel open, no lock held) it completes
without a fault; `os.Remove` is called exactly once, at `PIDFile`, when a
configuration is present with a non-empty `PIDFile`, and not at all when the
`PIDFile` is empty or when the Config Store was never populated, in which case
`getConfig` returns nil. -/
theorem handleSigterm_removes_pidfile (g : Globals)
    (hh : g.held = []) (hc : g.shutdownChanClosed = false) :
    ∃ w, run handleSigterm g = Except.ok ((), w)
      ∧ (∀ c, g.configuration = some c → c.PIDFile ≠ "" → removals w.trace = [c.PIDFile])
      ∧ (∀ c, g.configuration = some c → c.PIDFile = "" → removals w.trace = [])
      ∧ (g.configuration = none → currentConfig g = Except.ok none ∧ removals w.trace = []) := by
  have hrun := handleSigterm_apply ⟨g, []⟩ hh hc
  simp only [List.nil_append] at hrun
  refine ⟨_, hrun, ?_, ?_, ?_⟩
  · intro c hconf hp
    simp [removals, termTrace, removeEntries, hconf, hp]
  · intro c hconf hp
    simp [removals, termTrace, removeEntries, hconf, hp]
  · intro hconf
    refine ⟨?_, ?_⟩
    · rw [currentConfig_of_not_write_held g (by simp [hh]), hconf]
    · simp [removals, termTrace, removeEntries, hconf]

/-- Witness of C7: a SIGTERM before the Config Store is first populated. -/
theorem handleSigterm_removes_pidfile_witness :
    freshGlobals.held = [] ∧ freshGlobals.shutdownChanClosed = false
      ∧ ∃ w, run handleSigterm freshGlobals = Except.ok ((), w)
        ∧ (∀ c, freshGlobals.configuration = some c → c.PIDFile ≠ "" →
            removals w.trace = [c.PIDFile])
        ∧ (∀ c, freshGlobals.configuration = some c → c.PIDFile = "" →
            removals w.trace = [])
        ∧ (freshGlobals.configuration = none →
            currentConfig freshGlobals = Except.ok none ∧ removals w.trace = []) :=
  ⟨rfl, rfl, handleSigterm_removes_pidfile freshGlobals rfl rfl⟩

end Redwood
